import Mathlib

/-!
Shallow embedding of the privacy-preserving analytics engine of the Sahay
repository — `services/data_processing.py` (class `CSVDataProcessor`) and the
`generate_patterns` management command in `core/admin.py` — together with
proofs about its k-anonymity suppression, pattern detection, pseudonymization
and per-student risk assessment.

Modelling conventions:
* dataframes are lists of typed rows, kept in frame order;
* numeric scores and the float means computed from them are modelled as
  rationals (the comparisons made by the code are exact at these magnitudes);
* timestamps are minutes since an arbitrary epoch, so `dt.hour` becomes
  `t / 60 % 24`;
* the window filtering done by `get_wellness_sessions(start_date=...)` happens
  before the functions modelled here receive their input, so every function
  takes the already-windowed session list.
-/

set_option linter.unusedVariables false

/- The Batteries rational operations are `@[irreducible]`, which blocks
`decide`/`rfl` evaluation of concrete rational arithmetic in the elaborator
(the kernel unfolds them regardless).  Making them semireducible lets the
concrete-input witnesses below evaluate. -/
attribute [local semireducible] Rat.add Rat.mul Rat.inv Rat.sub

section KAnonymity

variable {α κ : Type} [DecidableEq κ]

/-- Size of the group of row `r` inside `rows` under the grouping key `g`:
`df.groupby(qi).size()` looked up at `r`'s key. -/
def groupCount (g : α → κ) (rows : List α) (r : α) : Nat :=
  (rows.filter (fun s => decide (g s = g r))).length

/-- One pass of the quasi-identifier loop of `_apply_k_anonymity`
(services/data_processing.py:598-606): group the current frame by the key
`g` and keep exactly the rows of groups of size at least `k`
(`valid_values = group_counts[group_counts >= k].index;
df = df[df[qi].isin(valid_values)]`). -/
def qiFilter (g : α → κ) (k : Nat) (rows : List α) : List α :=
  rows.filter (fun r => decide (k ≤ groupCount g rows r))

theorem groupCount_eq_of_key (g : α → κ) (rows : List α) (r : α) (c : κ)
    (h : g r = c) :
    groupCount g rows r = (rows.filter (fun s => decide (g s = c))).length := by
  unfold groupCount
  congr 1
  apply List.filter_congr
  intro s _
  simp [h]

theorem filter_key_qiFilter (g : α → κ) (k : Nat) (rows : List α) (c : κ) :
    (qiFilter g k rows).filter (fun r => decide (g r = c)) =
      if k ≤ (rows.filter (fun r => decide (g r = c))).length
      then rows.filter (fun r => decide (g r = c)) else [] := by
  unfold qiFilter
  rw [List.filter_filter]
  by_cases hc : k ≤ (rows.filter (fun r => decide (g r = c))).length
  · rw [if_pos hc]
    apply List.filter_congr
    intro r _
    by_cases hr : g r = c
    · have : k ≤ groupCount g rows r := by
        rw [groupCount_eq_of_key g rows r c hr]; exact hc
      simp [hr, this]
    · simp [hr]
  · rw [if_neg hc]
    apply List.filter_eq_nil_iff.mpr
    intro r _
    simp only [Bool.and_eq_true, decide_eq_true_eq, not_and]
    intro hr
    rw [groupCount_eq_of_key g rows r c hr]
    exact hc

theorem mem_qiFilter (g : α → κ) (k : Nat) (rows : List α) :
    ∀ r ∈ qiFilter g k rows, r ∈ rows ∧ k ≤ groupCount g rows r := by
  intro r hr
  have h := List.mem_filter.mp hr
  exact ⟨h.1, by simpa using h.2⟩

/-- C7 (amended): each single quasi-identifier pass of `_apply_k_anonymity`
is idempotent — re-running the same pass on its own output returns that
output unchanged.  The full two-pass function is not idempotent
(`suppress_not_idempotent_cex` below): the `screener_type` pass can shrink a
`risk_level` group below `k`, which a second application then suppresses. -/
theorem suppress_pass_idempotent (g : α → κ) (k : Nat) (rows : List α) :
    qiFilter g k (qiFilter g k rows) = qiFilter g k rows := by
  have hgrp : ∀ r ∈ qiFilter g k rows,
      groupCount g (qiFilter g k rows) r = groupCount g rows r := by
    intro r hr
    have h := filter_key_qiFilter g k rows (g r)
    have hc : k ≤ (rows.filter (fun s => decide (g s = g r))).length := by
      rw [← groupCount_eq_of_key g rows r (g r) rfl]
      exact (mem_qiFilter g k rows r hr).2
    rw [if_pos hc] at h
    unfold groupCount
    rw [h]
  show (qiFilter g k rows).filter
      (fun r => decide (k ≤ groupCount g (qiFilter g k rows) r))
    = qiFilter g k rows
  apply List.filter_eq_self.mpr
  intro r hr
  simp only [decide_eq_true_eq]
  rw [hgrp r hr]
  exact (mem_qiFilter g k rows r hr).2

end KAnonymity

/-! ### The anonymized wellness export frame (`_apply_k_anonymity`) -/

/-- A row of the frame `_apply_k_anonymity` is applied to
(`export_wellness_sessions`, services/data_processing.py:395-423): the
wellness-session columns with `student_id` replaced by its hash.  Columns the
function never reads or writes (`session_id`, `total_score`,
`needs_escalation`, `escalated_to`) are omitted; they ride along unchanged. -/
structure ExportRow where
  studentIdHash : String
  createdAt : Nat
  moodScore : ℚ
  anxietyScore : ℚ
  riskLevel : String
  screenerType : String
deriving DecidableEq, Repr

/-- `df['created_at'] = pd.to_datetime(df['created_at']).dt.floor('H')` for a
timestamp in epoch minutes. -/
def floorToHour (r : ExportRow) : ExportRow :=
  { r with createdAt := r.createdAt / 60 * 60 }

/-- `_apply_k_anonymity` (services/data_processing.py:590-612): if the frame
has fewer than `k` rows, return an empty frame; otherwise run the
quasi-identifier suppression pass for `risk_level` and then for
`screener_type` — the second pass recomputes its group sizes on the frame
already filtered by the first — and finally floor the `created_at` column to
the enclosing hour. -/
def apply_k_anonymity (k : Nat) (df : List ExportRow) : List ExportRow :=
  if df.length < k then []
  else
    (qiFilter (fun r => r.screenerType) k
      (qiFilter (fun r => r.riskLevel) k df)).map floorToHour

theorem apply_k_anonymity_of_le (k : Nat) (df : List ExportRow)
    (h : ¬ df.length < k) :
    apply_k_anonymity k df
      = (qiFilter (fun r => r.screenerType) k
          (qiFilter (fun r => r.riskLevel) k df)).map floorToHour := if_neg h

theorem filter_screener_map_floor (S : List ExportRow) (c : String) :
    (S.map floorToHour).filter (fun s => decide (s.screenerType = c))
      = (S.filter (fun s => decide (s.screenerType = c))).map floorToHour := by
  induction S with
  | nil => rfl
  | cons a t ih =>
    by_cases h : a.screenerType = c <;>
      simp [floorToHour, List.filter_cons, h, ih]

/-- Shorthand for an export row in concrete scenarios. -/
def mkE (t : Nat) (rl st : String) : ExportRow := ⟨"h", t, 5, 5, rl, st⟩

/-- Five `(L1, A)` rows, four `(L2, A)` rows and one `(L2, B)` row
(risk level, screener type). -/
def exportScenario : List ExportRow :=
  [mkE 0 "L1" "A", mkE 60 "L1" "A", mkE 120 "L1" "A", mkE 180 "L1" "A",
   mkE 240 "L1" "A", mkE 300 "L2" "A", mkE 360 "L2" "A", mkE 420 "L2" "A",
   mkE 480 "L2" "A", mkE 540 "L2" "B"]

/-- C2 counterexample: the claim says a group with at least `k` rows
contributes exactly its original rows.  With `k = 5`, the `risk_level` group
`L2` of `exportScenario` has exactly 5 ≥ k rows, yet only 4 of them survive
`_apply_k_anonymity`: the `screener_type` pass, whose group sizes are
recomputed on the already-filtered frame, removes the single `(L2, B)` row —
a partial truncation of a surviving group. -/
theorem suppress_partial_truncation_cex :
    (exportScenario.filter (fun r => decide (r.riskLevel = "L2"))).length = 5
    ∧ ((apply_k_anonymity 5 exportScenario).filter
        (fun r => decide (r.riskLevel = "L2"))).length = 4 := by
  decide

/-- C7 counterexample: `_apply_k_anonymity` is not idempotent.  On
`exportScenario` with `k = 5` one application keeps 9 rows (only `(L2, B)`
is dropped), but re-applying suppresses the `L2` group — now shrunk to 4 < 5
rows — leaving 5 rows. -/
theorem suppress_not_idempotent_cex :
    (apply_k_anonymity 5 exportScenario).length = 9
    ∧ (apply_k_anonymity 5 (apply_k_anonymity 5 exportScenario)).length = 5
    ∧ apply_k_anonymity 5 (apply_k_anonymity 5 exportScenario)
        ≠ apply_k_anonymity 5 exportScenario := by
  decide

/-- C2 (amended): `_apply_k_anonymity` applies the sub-`k` group-suppression
rule once per quasi-identifier (`risk_level`, then `screener_type`), with
group sizes recomputed on the already-filtered frame.  Any single pass keeps
exactly the rows of groups of size at least `k`, in their original order,
and a group below `k` contributes nothing — but a `risk_level` group of size
`≥ k` may be partially truncated by the subsequent `screener_type` pass
(`suppress_partial_truncation_cex`).  The released frame is an
order-preserving selection of the input rows with `created_at` floored to
the hour; every released row belonged to a `risk_level` group of size `≥ k`
of the input frame and belongs to a `screener_type` group of size `≥ k` of
the released frame; and a frame with fewer than `k` rows yields an empty
frame (the function is total, so no exception is raised). -/
theorem suppress_correct {α κ : Type} [DecidableEq κ] (g : α → κ) (k : Nat)
    (rows : List α) (df : List ExportRow) :
    (∀ c : κ, (qiFilter g k rows).filter (fun r => decide (g r = c)) =
        if k ≤ (rows.filter (fun r => decide (g r = c))).length
        then rows.filter (fun r => decide (g r = c)) else [])
    ∧ (df.length < k → apply_k_anonymity k df = [])
    ∧ (apply_k_anonymity k df).Sublist (df.map floorToHour)
    ∧ (∀ r ∈ apply_k_anonymity k df,
        k ≤ ((apply_k_anonymity k df).filter
            (fun s => decide (s.screenerType = r.screenerType))).length
        ∧ ∃ r0 ∈ df, r = floorToHour r0
            ∧ k ≤ (df.filter
                (fun s => decide (s.riskLevel = r0.riskLevel))).length) := by
  refine ⟨filter_key_qiFilter g k rows, ?_, ?_, ?_⟩
  · intro hlen
    unfold apply_k_anonymity
    rw [if_pos hlen]
  · by_cases hlen : df.length < k
    · unfold apply_k_anonymity
      rw [if_pos hlen]
      exact List.nil_sublist _
    · rw [apply_k_anonymity_of_le k df hlen]
      exact List.Sublist.map floorToHour
        ((List.filter_sublist _).trans (List.filter_sublist _))
  · intro r hr
    by_cases hlen : df.length < k
    · rw [apply_k_anonymity] at hr
      rw [if_pos hlen] at hr
      cases hr
    · rw [apply_k_anonymity_of_le k df hlen] at hr
      obtain ⟨r0, hr0, hfl⟩ := List.mem_map.mp hr
      have h2 := mem_qiFilter (fun r => r.screenerType) k
        (qiFilter (fun r => r.riskLevel) k df) r0 hr0
      have h1 := mem_qiFilter (fun r => r.riskLevel) k df r0 h2.1
      constructor
      · have hkey := filter_key_qiFilter (fun r : ExportRow => r.screenerType)
          k (qiFilter (fun r => r.riskLevel) k df) r0.screenerType
        have hc : k ≤ ((qiFilter (fun r => r.riskLevel) k df).filter
            (fun s => decide (s.screenerType = r0.screenerType))).length := by
          rw [← groupCount_eq_of_key (fun r : ExportRow => r.screenerType)
            (qiFilter (fun r => r.riskLevel) k df) r0 r0.screenerType rfl]
          exact h2.2
        rw [if_pos hc] at hkey
        rw [apply_k_anonymity_of_le k df hlen, ← hfl]
        show k ≤ (((qiFilter (fun r => r.screenerType) k
            (qiFilter (fun r => r.riskLevel) k df)).map floorToHour).filter
            (fun s => decide (s.screenerType = r0.screenerType))).length
        rw [filter_screener_map_floor, List.length_map, hkey]
        exact hc
      · refine ⟨r0, h1.1, hfl.symm, ?_⟩
        have h := h1.2
        rwa [groupCount_eq_of_key (fun r : ExportRow => r.riskLevel) df r0
          r0.riskLevel rfl] at h

/-- Concrete instance of `suppress_correct`: one pass on `[0,1,2,3,4]`
grouped modulo 3 with `k = 2` keeps the group `{0,3}` whole, and a 1-row
export frame with `k = 2` is suppressed entirely. -/
theorem suppress_correct_witness :
    (qiFilter (fun n : Nat => n % 3) 2 [0, 1, 2, 3, 4]).filter
        (fun r => decide (r % 3 = 0)) = [0, 3]
    ∧ apply_k_anonymity 2 [mkE 0 "L1" "A"] = [] := by
  constructor
  · have h := (suppress_correct (fun n : Nat => n % 3) 2 [0, 1, 2, 3, 4]
      [mkE 0 "L1" "A"]).1 0
    rw [if_pos (by decide)] at h
    exact h.trans (by decide)
  · exact (suppress_correct (fun n : Nat => n % 3) 2 [0, 1, 2, 3, 4]
      [mkE 0 "L1" "A"]).2.1 (by decide)

/-! ### Data model

Typed rows for the three tables the analytics engine reads
(`wellness_sessions`, `learning_sessions`, `students`), restricted to the
columns the modelled functions touch. -/

structure WellnessSession where
  studentId : String
  createdAt : Nat
  moodScore : ℚ
  anxietyScore : ℚ
  riskLevel : String
deriving DecidableEq, Repr

structure LearningSession where
  studentId : String
  courseId : String
  topic : String
  durationMinutes : ℚ
  quizScore : ℚ
  comprehensionLevel : String
deriving DecidableEq, Repr

structure Student where
  studentId : String
deriving DecidableEq, Repr

/-- A pattern dict appended by `_detect_patterns_csv`
(services/data_processing.py:650-683); the `topics` entry of academic
patterns is not modelled (no claim mentions it). -/
structure Pattern where
  ptype : String
  description : String
  severity : String
  kCount : Nat
deriving DecidableEq, Repr

/-- A `Pattern` row created by the `generate_patterns` management command
(core/admin.py:356-371). -/
structure RiskPattern where
  riskLevel : String
  percentage : ℚ
  kCount : Nat
  severity : String
  timeWindowDays : Nat
  recommendedActions : List String
deriving DecidableEq, Repr

/-- Mean of a list of (rational) scores, `Series.mean()`.  Only ever applied
to nonempty lists by the functions below. -/
def meanQ (l : List ℚ) : ℚ := l.sum / l.length

/-- `pd.to_datetime(created_at).dt.hour` for a timestamp in epoch minutes. -/
def hourOf (s : WellnessSession) : Nat := s.createdAt / 60 % 24

/-- The wellness sessions falling in hour-of-day `h`
(one group of `df_wellness.groupby('hour')`). -/
def sessionsAtHour (ws : List WellnessSession) (h : Nat) : List WellnessSession :=
  ws.filter (fun s => decide (hourOf s = h))

/-- Mean anxiety score of a session group
(`groupby('hour')['anxiety_score'].agg(['mean', ...])`). -/
def meanAnxiety (l : List WellnessSession) : ℚ :=
  meanQ (l.map (·.anxietyScore))

/-- The description f-string of a temporal pattern. -/
def tdescr (h : Nat) : String := "High anxiety at hour " ++ toString h

/-- The temporal rule of `_detect_patterns_csv`
(services/data_processing.py:654-668): group the wellness sessions by
hour-of-day (`groupby` iterates the occurring hours in ascending order) and,
for every group with `count >= k` and `mean > 6`, append one pattern whose
severity is `high` when `mean > 8` and `medium` otherwise. -/
def temporalPatterns (k : Nat) (ws : List WellnessSession) : List Pattern :=
  if ws.isEmpty then []
  else
    (List.range 24).filterMap (fun h =>
      if 0 < (sessionsAtHour ws h).length ∧ k ≤ (sessionsAtHour ws h).length
          ∧ 6 < meanAnxiety (sessionsAtHour ws h) then
        some ⟨"temporal", tdescr h,
              if 8 < meanAnxiety (sessionsAtHour ws h) then "high" else "medium",
              (sessionsAtHour ws h).length⟩
      else none)

/-- The learning sessions with `comprehension_level == 'low'`. -/
def lowComprehension (ls : List LearningSession) : List LearningSession :=
  ls.filter (fun s => decide (s.comprehensionLevel = "low"))

/-- The academic rule of `_detect_patterns_csv`
(services/data_processing.py:670-681): when the learning-session frame is
nonempty, select the rows with `comprehension_level == 'low'` and, when at
least `k` such rows exist, append one pattern with severity `high`. -/
def academicPatterns (k : Nat) (ls : List LearningSession) : List Pattern :=
  if ls.isEmpty then []
  else if k ≤ (lowComprehension ls).length then
    [⟨"academic", "Low comprehension detected", "high",
      (lowComprehension ls).length⟩]
  else []

/-- `_detect_patterns_csv` (services/data_processing.py:650-683): the
temporal patterns followed by the academic patterns. -/
def detect_patterns_csv (k : Nat) (ws : List WellnessSession)
    (ls : List LearningSession) : List Pattern :=
  temporalPatterns k ws ++ academicPatterns k ls

/-- The distinct values of a list in first-occurrence order: the key set of a
Python dict filled by insertion (`risk_counts`), and also
`Series.unique()`. -/
def distinctKeys (l : List String) : List String :=
  l.foldl (fun acc x => if x ∈ acc then acc else acc ++ [x]) []

/-- Number of sessions at risk level `rl` (`risk_counts[rl]`). -/
def riskGroupSize (sessions : List WellnessSession) (rl : String) : Nat :=
  (sessions.filter (fun s => decide (s.riskLevel = rl))).length

/-- `Command.handle` of the `generate_patterns` management command
(core/admin.py:329-371), given the sessions of the trailing window: if fewer
than `k` sessions exist, stop without creating anything; otherwise count the
sessions of each occurring risk level and, for each level with `count >= k`,
create one risk pattern with `percentage = count / total * 100` (total is the
unfiltered window count), severity `high` for `L3` and `medium` otherwise. -/
def generate_patterns (k : Nat) (days : Nat)
    (sessions : List WellnessSession) : List RiskPattern :=
  if sessions.length < k then []
  else
    (distinctKeys (sessions.map (·.riskLevel))).filterMap (fun rl =>
      if k ≤ riskGroupSize sessions rl then
        some ⟨rl,
              (riskGroupSize sessions rl : ℚ) / (sessions.length : ℚ) * 100,
              riskGroupSize sessions rl,
              if rl = "L3" then "high" else "medium", days,
              ["Increase support", "Monitor closely"]⟩
      else none)

/-! ### Report generation (`generate_analytics_report`) -/

/-- The class filter of `generate_analytics_report`
(services/data_processing.py:436-441): when a `class_id` is supplied,
restrict the learning sessions to that course and the wellness sessions to
the students who attended it (`unique()` before `isin` does not change the
membership test). -/
def scopedSessions (classId : Option String) (ws : List WellnessSession)
    (ls : List LearningSession) :
    List WellnessSession × List LearningSession :=
  match classId with
  | none => (ws, ls)
  | some c =>
    (ws.filter (fun w =>
        decide (w.studentId ∈ (ls.filter
          (fun s => decide (s.courseId = c))).map (·.studentId))),
     ls.filter (fun s => decide (s.courseId = c)))

/-- `Series.value_counts().to_dict()`: occurrence counts per distinct value.
The dict content is modelled in first-occurrence order (pandas sorts the
counts descending; no modelled claim depends on the ordering). -/
def valueCounts (l : List String) : List (String × Nat) :=
  (distinctKeys l).map (fun v => (v, (l.filter (fun x => decide (x = v))).length))

structure WellnessMetrics where
  avgMoodScore : ℚ
  avgAnxietyScore : ℚ
  riskDistribution : List (String × Nat)
  totalSessions : Nat
  highRiskPercentage : ℚ
deriving DecidableEq, Repr

/-- `_calculate_wellness_metrics` (services/data_processing.py:614-631); in
the typed model every column is present, so the per-column fallbacks of the
source cannot trigger. -/
def calculate_wellness_metrics (sessions : List WellnessSession) :
    WellnessMetrics :=
  if sessions.isEmpty then ⟨0, 0, [], 0, 0⟩
  else
    ⟨meanQ (sessions.map (·.moodScore)),
     meanQ (sessions.map (·.anxietyScore)),
     valueCounts (sessions.map (·.riskLevel)),
     sessions.length,
     meanQ (sessions.map (fun s => if s.riskLevel = "L3" then (1 : ℚ) else 0))
       * 100⟩

structure LearningMetrics where
  avgQuizScore : ℚ
  avgDuration : ℚ
  comprehensionDistribution : List (String × Nat)
  totalSessions : Nat
deriving DecidableEq, Repr

/-- `_calculate_learning_metrics` (services/data_processing.py:633-648). -/
def calculate_learning_metrics (sessions : List LearningSession) :
    LearningMetrics :=
  if sessions.isEmpty then ⟨0, 0, [], 0⟩
  else
    ⟨meanQ (sessions.map (·.quizScore)),
     meanQ (sessions.map (·.durationMinutes)),
     valueCounts (sessions.map (·.comprehensionLevel)),
     sessions.length⟩

/-- `_generate_recommendations` (services/data_processing.py:685-710). -/
def generate_recommendations (wm : WellnessMetrics) (lm : LearningMetrics)
    (patterns : List Pattern) : List String :=
  (if 6 < wm.avgAnxietyScore then
    ["Increase wellness support resources - high anxiety detected"] else [])
  ++ (if 20 < wm.highRiskPercentage then
    ["Critical: Over 20% of sessions show high risk - immediate intervention needed"]
    else [])
  ++ (if lm.avgQuizScore < 60 then
    ["Review teaching methods - low quiz scores across sessions"] else [])
  ++ (patterns.map (fun p =>
       (if p.ptype = "temporal" ∧ p.severity = "high" then
         ["Schedule support during high-stress hours"] else [])
       ++ (if p.ptype = "academic" ∧ p.severity = "high" then
         ["Provide additional resources for challenging topics"] else []))).flatten

/-- The report dict assembled by `generate_analytics_report`
(services/data_processing.py:425-464); `report_date` and the save-to-disk
side effect are not modelled. -/
structure Report where
  timeWindowDays : Nat
  classId : Option String
  totalStudents : Nat
  activeStudents : Nat
  wellnessMetrics : WellnessMetrics
  learningMetrics : LearningMetrics
  patterns : List Pattern
  recommendations : List String
deriving DecidableEq, Repr

/-- `generate_analytics_report` (services/data_processing.py:425-464), given
the already-windowed session frames. -/
def generate_analytics_report (k : Nat) (timeWindowDays : Nat)
    (classId : Option String) (students : List Student)
    (ws : List WellnessSession) (ls : List LearningSession) : Report :=
  { timeWindowDays := timeWindowDays
    classId := classId
    totalStudents := students.length
    activeStudents :=
      (distinctKeys ((scopedSessions classId ws ls).1.map (·.studentId))).length
    wellnessMetrics := calculate_wellness_metrics (scopedSessions classId ws ls).1
    learningMetrics := calculate_learning_metrics (scopedSessions classId ws ls).2
    patterns := detect_patterns_csv k (scopedSessions classId ws ls).1
      (scopedSessions classId ws ls).2
    recommendations := generate_recommendations
      (calculate_wellness_metrics (scopedSessions classId ws ls).1)
      (calculate_learning_metrics (scopedSessions classId ws ls).2)
      (detect_patterns_csv k (scopedSessions classId ws ls).1
        (scopedSessions classId ws ls).2) }

/-! ### Properties of `distinctKeys` -/

theorem mem_foldl_insert (l acc : List String) (x : String) :
    x ∈ l.foldl (fun a y => if y ∈ a then a else a ++ [y]) acc
      ↔ x ∈ acc ∨ x ∈ l := by
  induction l generalizing acc with
  | nil => simp
  | cons a t ih =>
    simp only [List.foldl_cons]
    by_cases h : a ∈ acc
    · rw [if_pos h, ih]
      constructor
      · rintro (hx | hx)
        · exact Or.inl hx
        · exact Or.inr (List.mem_cons_of_mem a hx)
      · rintro (hx | hx)
        · exact Or.inl hx
        · rcases List.mem_cons.mp hx with rfl | hx
          · exact Or.inl h
          · exact Or.inr hx
    · rw [if_neg h, ih]
      simp only [List.mem_append, List.mem_singleton, List.mem_cons]
      tauto

theorem nodup_foldl_insert (l : List String) :
    ∀ acc : List String, acc.Nodup →
      (l.foldl (fun a y => if y ∈ a then a else a ++ [y]) acc).Nodup := by
  induction l with
  | nil => intro acc h; simpa using h
  | cons a t ih =>
    intro acc h
    simp only [List.foldl_cons]
    by_cases ha : a ∈ acc
    · rw [if_pos ha]; exact ih _ h
    · rw [if_neg ha]
      refine ih _ (List.Nodup.append h (List.nodup_singleton a) ?_)
      intro x hx hxa
      rw [List.mem_singleton] at hxa
      subst hxa
      exact ha hx

theorem mem_distinctKeys (l : List String) (x : String) :
    x ∈ distinctKeys l ↔ x ∈ l := by
  unfold distinctKeys
  rw [mem_foldl_insert]
  simp

theorem distinctKeys_nodup (l : List String) : (distinctKeys l).Nodup :=
  nodup_foldl_insert l [] List.nodup_nil

theorem filterMap_if_eq_filter (p : String → Bool) (l : List String) :
    l.filterMap (fun x => if p x then some x else none) = l.filter p := by
  induction l with
  | nil => rfl
  | cons a t ih => by_cases h : p a <;> simp [List.filterMap_cons, h, ih]

theorem count_filter_nodup (l : List String) (hl : l.Nodup) (p : String → Bool)
    (a : String) :
    ((l.filter p).count a) = if a ∈ l ∧ p a then 1 else 0 := by
  by_cases hmem : a ∈ l.filter p
  · rw [List.count_eq_one_of_mem (hl.filter p) hmem]
    have h := List.mem_filter.mp hmem
    rw [if_pos ⟨h.1, h.2⟩]
  · rw [List.count_eq_zero_of_not_mem hmem,
        if_neg (fun hc => hmem (List.mem_filter.mpr ⟨hc.1, hc.2⟩))]

/-! ### The risk rule (C1 part, C3) -/

theorem generate_patterns_levels (k days : Nat)
    (sessions : List WellnessSession) (hlen : ¬ sessions.length < k) :
    (generate_patterns k days sessions).map (·.riskLevel)
      = (distinctKeys (sessions.map (·.riskLevel))).filter
          (fun rl => decide (k ≤ riskGroupSize sessions rl)) := by
  unfold generate_patterns
  rw [if_neg hlen, List.map_filterMap, ← filterMap_if_eq_filter]
  apply List.filterMap_congr
  intro rl _
  by_cases h : k ≤ riskGroupSize sessions rl <;> simp [h]

/-- C3: the `generate_patterns` command groups the window's sessions by
`risk_level`; each group of size `≥ k` yields exactly one risk pattern (no
pattern otherwise), with severity `high` for `L3` and `medium` for every
other level, `k_count` equal to the group size and
`percentage = group_size / unfiltered_window_total * 100`. -/
theorem risk_rule_correct (k days : Nat) (sessions : List WellnessSession)
    (rl : String) (hk : 0 < k) :
    (((generate_patterns k days sessions).map (·.riskLevel)).count rl
        = if k ≤ riskGroupSize sessions rl then 1 else 0)
    ∧ ∀ p ∈ generate_patterns k days sessions, p.riskLevel = rl →
        p.severity = (if rl = "L3" then "high" else "medium")
        ∧ p.percentage
            = (riskGroupSize sessions rl : ℚ) / (sessions.length : ℚ) * 100
        ∧ p.kCount = riskGroupSize sessions rl := by
  constructor
  · by_cases hlen : sessions.length < k
    · have h0 : generate_patterns k days sessions = [] := if_pos hlen
      have hsz : riskGroupSize sessions rl < k :=
        Nat.lt_of_le_of_lt (List.length_filter_le _ _) hlen
      rw [h0, if_neg (Nat.not_le_of_lt hsz)]
      rfl
    · rw [generate_patterns_levels k days sessions hlen,
          count_filter_nodup _ (distinctKeys_nodup _)]
      by_cases hc : k ≤ riskGroupSize sessions rl
      · rw [if_pos hc, if_pos]
        refine ⟨?_, by simpa using hc⟩
        rw [mem_distinctKeys]
        have hpos : 0 < riskGroupSize sessions rl := Nat.lt_of_lt_of_le hk hc
        rw [riskGroupSize, List.length_pos_iff_exists_mem] at hpos
        obtain ⟨s, hs⟩ := hpos
        have h2 := List.mem_filter.mp hs
        exact List.mem_map.mpr ⟨s, h2.1, by simpa using h2.2⟩
      · rw [if_neg hc, if_neg]
        intro hcontra
        exact hc (by simpa using hcontra.2)
  · intro p hp hprl
    unfold generate_patterns at hp
    by_cases hlen : sessions.length < k
    · rw [if_pos hlen] at hp; cases hp
    · rw [if_neg hlen] at hp
      obtain ⟨rl2, hmem2, hrl2⟩ := List.mem_filterMap.mp hp
      by_cases hc : k ≤ riskGroupSize sessions rl2
      · rw [if_pos hc] at hrl2
        have hp2 := Option.some.inj hrl2
        subst hp2
        have : rl2 = rl := hprl
        subst this
        exact ⟨rfl, rfl, rfl⟩
      · rw [if_neg hc] at hrl2; cases hrl2

/-- Shorthand for a wellness session row in concrete scenarios. -/
def mkW (t : Nat) (anx : ℚ) (rl : String) : WellnessSession :=
  ⟨"s", t, 5, anx, rl⟩

/-- The spec scenario for the risk rule: 4 sessions at `L3` and 6 at `L2`. -/
def riskScenario : List WellnessSession :=
  [mkW 0 5 "L3", mkW 60 5 "L3", mkW 120 5 "L3", mkW 180 5 "L3",
   mkW 240 5 "L2", mkW 300 5 "L2", mkW 360 5 "L2", mkW 420 5 "L2",
   mkW 480 5 "L2", mkW 540 5 "L2"]

/-- Concrete instance of `risk_rule_correct` at the spec scenario: with
`k = 5`, exactly one risk pattern is created — for `L2`, with `k_count = 6`
and severity `medium` — and none for `L3`. -/
theorem risk_rule_correct_witness :
    ((generate_patterns 5 7 riskScenario).map (·.riskLevel)).count "L2" = 1
    ∧ ((generate_patterns 5 7 riskScenario).map (·.riskLevel)).count "L3" = 0
    ∧ (generate_patterns 5 7 riskScenario).length = 1
    ∧ ∀ p ∈ generate_patterns 5 7 riskScenario,
        p.kCount = 6 ∧ p.severity = "medium" := by
  refine ⟨?_, ?_, by decide, by decide⟩
  · rw [(risk_rule_correct 5 7 riskScenario "L2" (by decide)).1]
    decide
  · rw [(risk_rule_correct 5 7 riskScenario "L3" (by decide)).1]
    decide

/-! ### The temporal rule (C4) -/

theorem tdescr_inj :
    ∀ a, a < 24 → ∀ b, b < 24 → tdescr a = tdescr b → a = b := by decide

theorem mem_temporalPatterns (k : Nat) (ws : List WellnessSession)
    (p : Pattern) :
    p ∈ temporalPatterns k ws ↔
      ∃ h, h < 24 ∧ ¬ ws.isEmpty
        ∧ 0 < (sessionsAtHour ws h).length
        ∧ k ≤ (sessionsAtHour ws h).length
        ∧ 6 < meanAnxiety (sessionsAtHour ws h)
        ∧ p = ⟨"temporal", tdescr h,
               if 8 < meanAnxiety (sessionsAtHour ws h) then "high"
               else "medium",
               (sessionsAtHour ws h).length⟩ := by
  unfold temporalPatterns
  by_cases hw : ws.isEmpty
  · simp [hw]
  · rw [if_neg hw]
    rw [List.mem_filterMap]
    constructor
    · rintro ⟨h, hmem, hf⟩
      rw [List.mem_range] at hmem
      by_cases hcond : 0 < (sessionsAtHour ws h).length
          ∧ k ≤ (sessionsAtHour ws h).length
          ∧ 6 < meanAnxiety (sessionsAtHour ws h)
      · rw [if_pos hcond] at hf
        exact ⟨h, hmem, hw, hcond.1, hcond.2.1, hcond.2.2,
               (Option.some.inj hf).symm⟩
      · rw [if_neg hcond] at hf; cases hf
    · rintro ⟨h, hmem, _, h1, h2, h3, hp⟩
      refine ⟨h, List.mem_range.mpr hmem, ?_⟩
      rw [if_pos ⟨h1, h2, h3⟩, hp]

/-- C4 (amended): the temporal rule groups the wellness sessions by
hour-of-day and, for each occurring group of size at least `k`, emits a
pattern exactly when the group's mean anxiety exceeds 6; the severity is
`medium` when the mean is greater than 6 and at most 8, and `high` when the
mean is strictly greater than 8; a group with mean at most 6, or with fewer
than `k` sessions, produces no pattern. -/
theorem temporal_rule_correct (k : Nat) (ws : List WellnessSession) (h : Nat)
    (hlt : h < 24) :
    (0 < (sessionsAtHour ws h).length ∧ k ≤ (sessionsAtHour ws h).length
        ∧ 6 < meanAnxiety (sessionsAtHour ws h) →
      (⟨"temporal", tdescr h,
        if 8 < meanAnxiety (sessionsAtHour ws h) then "high" else "medium",
        (sessionsAtHour ws h).length⟩ : Pattern) ∈ temporalPatterns k ws)
    ∧ (meanAnxiety (sessionsAtHour ws h) ≤ 6 →
        ∀ p ∈ temporalPatterns k ws, p.description ≠ tdescr h)
    ∧ ((sessionsAtHour ws h).length < k →
        ∀ p ∈ temporalPatterns k ws, p.description ≠ tdescr h)
    ∧ (∀ p ∈ temporalPatterns k ws, p.ptype = "temporal"
        ∧ ∃ h2, h2 < 24
          ∧ p.description = tdescr h2
          ∧ p.kCount = (sessionsAtHour ws h2).length
          ∧ k ≤ (sessionsAtHour ws h2).length
          ∧ 6 < meanAnxiety (sessionsAtHour ws h2)
          ∧ (meanAnxiety (sessionsAtHour ws h2) ≤ 8 → p.severity = "medium")
          ∧ (8 < meanAnxiety (sessionsAtHour ws h2) → p.severity = "high")) := by
  have hchar := fun p => mem_temporalPatterns k ws p
  refine ⟨?_, ?_, ?_, ?_⟩
  · intro hcond
    have hne : ¬ ws.isEmpty := by
      intro hemp
      have : sessionsAtHour ws h = [] := by
        unfold sessionsAtHour
        rw [List.isEmpty_iff.mp hemp]
        rfl
      rw [this] at hcond
      exact absurd hcond.1 (by simp)
    exact (hchar _).mpr ⟨h, hlt, hne, hcond.1, hcond.2.1, hcond.2.2, rfl⟩
  · intro hmean p hp hdesc
    obtain ⟨h2, hlt2, _, _, _, hmean2, hp2⟩ := (hchar p).mp hp
    rw [hp2] at hdesc
    simp only at hdesc
    have := tdescr_inj h2 hlt2 h hlt hdesc
    subst this
    exact absurd hmean2 (not_lt_of_le hmean)
  · intro hcount p hp hdesc
    obtain ⟨h2, hlt2, _, _, hcount2, _, hp2⟩ := (hchar p).mp hp
    rw [hp2] at hdesc
    simp only at hdesc
    have := tdescr_inj h2 hlt2 h hlt hdesc
    subst this
    exact absurd hcount2 (Nat.not_le_of_lt hcount)
  · intro p hp
    obtain ⟨h2, hlt2, _, _, hcount2, hmean2, hp2⟩ := (hchar p).mp hp
    subst hp2
    refine ⟨rfl, h2, hlt2, rfl, rfl, hcount2, hmean2, ?_, ?_⟩
    · intro hle
      simp only [if_neg (not_lt_of_le hle)]
    · intro hgt
      simp only [if_pos hgt]

/-- A group with mean anxiety exactly 8: five sessions in hour 14 (epoch
minutes 840-844), each with anxiety score 8. -/
def boundaryScenario : List WellnessSession :=
  [mkW 840 8 "L1", mkW 841 8 "L1", mkW 842 8 "L1", mkW 843 8 "L1",
   mkW 844 8 "L1"]

/-- C4 counterexample: the claim assigns severity `high` to a surviving group
whose mean anxiety is greater than or equal to 8, but at a group with mean
exactly 8 the code (`'high' if row.mean > 8 else 'medium'`) emits
`medium`. -/
theorem temporal_severity_boundary_cex :
    meanAnxiety (sessionsAtHour boundaryScenario 14) = 8
    ∧ 5 ≤ (sessionsAtHour boundaryScenario 14).length
    ∧ (temporalPatterns 5 boundaryScenario).map (·.severity) = ["medium"]
    ∧ ¬ (temporalPatterns 5 boundaryScenario).map (·.severity) = ["high"] := by
  decide

/-- The spec scenario for the temporal rule: six sessions in hour 14 with
anxiety scores 8, 8, 8, 9, 9, 9 — mean 8.5. -/
def temporalScenario : List WellnessSession :=
  [mkW 840 8 "L1", mkW 841 8 "L1", mkW 842 8 "L1", mkW 843 9 "L1",
   mkW 844 9 "L1", mkW 845 9 "L1"]

/-- Concrete instance of `temporal_rule_correct` at the spec scenario: six
sessions at hour 14 with mean anxiety 8.5 yield exactly one pattern, of
severity `high`, with `k_count = 6`. -/
theorem temporal_rule_correct_witness :
    (⟨"temporal", tdescr 14, "high", 6⟩ : Pattern)
        ∈ temporalPatterns 5 temporalScenario
    ∧ temporalPatterns 5 temporalScenario
        = [⟨"temporal", tdescr 14, "high", 6⟩] := by
  constructor
  · have h := (temporal_rule_correct 5 temporalScenario 14 (by decide)).1
    have hmem := h ⟨by decide, by decide, by decide⟩
    have e : (if 8 < meanAnxiety (sessionsAtHour temporalScenario 14)
        then "high" else "medium") = "high" := by decide
    have l : (sessionsAtHour temporalScenario 14).length = 6 := by decide
    rw [e, l] at hmem
    exact hmem
  · decide

/-! ### The academic rule and the report (C5, C1, C9) -/

/-- Shorthand for a low-comprehension learning session row. -/
def mkL (cid t : String) : LearningSession := ⟨"s", cid, t, 30, 50, "low"⟩

/-- Six low-comprehension learning sessions in one course. -/
def academicScenario : List LearningSession :=
  [mkL "c1" "t1", mkL "c1" "t2", mkL "c1" "t3", mkL "c1" "t4",
   mkL "c1" "t5", mkL "c1" "t6"]

/-- C5 counterexample: the claim says the academic rule fires only when a
class scope is supplied, with severity `medium` unless the group exceeds
`2 * K_THRESHOLD`.  With no scope (`class_id = None`) and six
low-comprehension sessions (`6 ≤ 2 * 5`), the code nevertheless emits one
academic pattern, and its severity is `high`. -/
theorem academic_scope_cex :
    (generate_analytics_report 5 7 none [] [] academicScenario).patterns
      = [⟨"academic", "Low comprehension detected", "high", 6⟩]
    ∧ ¬ 2 * 5 < 6 := by
  decide

/-- C5 (amended): the academic rule runs whether or not a class scope is
supplied — when one is supplied the learning sessions are first restricted to
it — and emits exactly one pattern, of severity `high`, with `k_count` the
number of low-comprehension sessions, exactly when the (scoped) learning
frame is nonempty and that number is at least `k`. -/
theorem academic_rule_correct (k wd : Nat) (classId : Option String)
    (students : List Student) (ws : List WellnessSession)
    (ls : List LearningSession) :
    (generate_analytics_report k wd classId students ws ls).patterns.filter
        (fun p => decide (p.ptype = "academic"))
      = if ¬ (scopedSessions classId ws ls).2.isEmpty
            ∧ k ≤ (lowComprehension (scopedSessions classId ws ls).2).length
        then [⟨"academic", "Low comprehension detected", "high",
              (lowComprehension (scopedSessions classId ws ls).2).length⟩]
        else [] := by
  have hrep : (generate_analytics_report k wd classId students ws ls).patterns
      = temporalPatterns k (scopedSessions classId ws ls).1
        ++ academicPatterns k (scopedSessions classId ws ls).2 := rfl
  rw [hrep, List.filter_append]
  have ht : (temporalPatterns k (scopedSessions classId ws ls).1).filter
      (fun p => decide (p.ptype = "academic")) = [] := by
    apply List.filter_eq_nil_iff.mpr
    intro p hp
    obtain ⟨h2, _, _, _, _, _, hp2⟩ :=
      (mem_temporalPatterns k (scopedSessions classId ws ls).1 p).mp hp
    subst hp2
    simp
  rw [ht, List.nil_append]
  unfold academicPatterns
  by_cases h1 : (scopedSessions classId ws ls).2.isEmpty
  · rw [if_pos h1, if_neg (fun hc => hc.1 h1)]
    rfl
  · rw [if_neg h1]
    by_cases h2 : k ≤ (lowComprehension (scopedSessions classId ws ls).2).length
    · rw [if_pos h2, if_pos ⟨h1, h2⟩]
      rfl
    · rw [if_neg h2, if_neg (fun hc => h2 hc.2)]
      rfl

/-- C1: every pattern the engine emits respects k-anonymity — each pattern of
`_detect_patterns_csv` (as assembled into a report, for any scope) and each
risk pattern of the `generate_patterns` command carries
`k_count ≥ K_THRESHOLD`. -/
theorem k_anonymity_invariant (k wd days : Nat) (classId : Option String)
    (students : List Student) (ws sessions : List WellnessSession)
    (ls : List LearningSession) :
    (∀ p ∈ (generate_analytics_report k wd classId students ws ls).patterns,
        k ≤ p.kCount)
    ∧ (∀ p ∈ generate_patterns k days sessions, k ≤ p.kCount) := by
  constructor
  · intro p hp
    have hrep : (generate_analytics_report k wd classId students ws ls).patterns
        = temporalPatterns k (scopedSessions classId ws ls).1
          ++ academicPatterns k (scopedSessions classId ws ls).2 := rfl
    rw [hrep, List.mem_append] at hp
    rcases hp with hp | hp
    · obtain ⟨h2, _, _, _, hcount, _, hp2⟩ :=
        (mem_temporalPatterns k (scopedSessions classId ws ls).1 p).mp hp
      subst hp2
      exact hcount
    · unfold academicPatterns at hp
      by_cases h1 : (scopedSessions classId ws ls).2.isEmpty
      · rw [if_pos h1] at hp; cases hp
      · rw [if_neg h1] at hp
        by_cases h2 :
            k ≤ (lowComprehension (scopedSessions classId ws ls).2).length
        · rw [if_pos h2] at hp
          have := List.mem_singleton.mp hp
          subst this
          exact h2
        · rw [if_neg h2] at hp; cases hp
  · intro p hp
    unfold generate_patterns at hp
    by_cases hlen : sessions.length < k
    · rw [if_pos hlen] at hp; cases hp
    · rw [if_neg hlen] at hp
      obtain ⟨rl, _, hrl⟩ := List.mem_filterMap.mp hp
      by_cases hc : k ≤ riskGroupSize sessions rl
      · rw [if_pos hc] at hrl
        have := Option.some.inj hrl
        subst this
        exact hc
      · rw [if_neg hc] at hrl; cases hrl

/-- Concrete instance of `k_anonymity_invariant`: the temporal pattern of the
hour-14 scenario carries `k_count = 6 ≥ 5`. -/
theorem k_anonymity_invariant_witness :
    5 ≤ (Pattern.mk "temporal" (tdescr 14) "high" 6).kCount := by
  refine (k_anonymity_invariant 5 7 7 none [] temporalScenario [] []).1 _ ?_
  decide

/-- C9: with empty session tables, a 30-day window and no class scope,
`generate_analytics_report` returns a report whose wellness and learning
session totals are 0 and whose pattern list is empty; the function is total,
so no exception is possible. -/
theorem empty_report_correct (students : List Student) :
    (generate_analytics_report 5 30 none students [] []).wellnessMetrics.totalSessions = 0
    ∧ (generate_analytics_report 5 30 none students [] []).learningMetrics.totalSessions = 0
    ∧ (generate_analytics_report 5 30 none students [] []).patterns = [] :=
  ⟨rfl, rfl, rfl⟩

/-! ### Per-student risk assessment (C6, C10) -/

/-- Chronological order on wellness sessions (`sort_values('created_at')`). -/
def timeLE (a b : WellnessSession) : Prop := a.createdAt ≤ b.createdAt

instance : DecidableRel timeLE := fun a b => Nat.decLe a.createdAt b.createdAt

/-- `sessions.sort_values('created_at')`. -/
def sortByTime (l : List WellnessSession) : List WellnessSession :=
  List.insertionSort timeLE l

/-- The trend computation of `get_student_risk_assessment`
(services/data_processing.py:487-500) on the chronologically sorted anxiety
scores: first half `head(n//2)`, second half `tail(n//2)`; `Worsening` when
the second-half mean exceeds the first-half mean by more than 1 point,
`Improving` when it is lower by more than 1 point, `Stable` otherwise. -/
def trendOfScores (scores : List ℚ) : String :=
  if meanQ (scores.take (scores.length / 2)) + 1
      < meanQ (scores.drop (scores.length - scores.length / 2)) then
    "Worsening"
  else if meanQ (scores.drop (scores.length - scores.length / 2))
      < meanQ (scores.take (scores.length / 2)) - 1 then
    "Improving"
  else "Stable"

structure RiskAssessment where
  riskLevel : String
  trend : String
  sessionCount : Nat
deriving DecidableEq, Repr

/-- `get_student_risk_assessment` (services/data_processing.py:470-513),
given the student's sessions inside the window: `Unknown`/`No data` when none
exist; otherwise the risk level of the latest session together with the
half-split anxiety trend when at least two sessions exist (`Insufficient
data` for a single session).  The per-student recommendation strings are not
modelled (no claim mentions them). -/
def get_student_risk_assessment (sessions : List WellnessSession) :
    RiskAssessment :=
  if sessions.isEmpty then ⟨"Unknown", "No data", 0⟩
  else
    ⟨((sortByTime sessions).getLastD ⟨"", 0, 0, 0, ""⟩).riskLevel,
     if 2 ≤ sessions.length then
       trendOfScores ((sortByTime sessions).map (·.anxietyScore))
     else "Insufficient data",
     sessions.length⟩

/-- C6: with no sessions the assessment is `Unknown`/`No data`; with exactly
one session the trend is `Insufficient data`; with at least two sessions the
trend compares the mean anxiety of the chronological first half (`head(n//2)`)
against the second half (`tail(n//2)`) — `Worsening` beyond +1, `Improving`
beyond −1, `Stable` otherwise; and the two-session spec scenarios `[3, 9]`,
`[9, 3]`, `[5, 5]` resolve to `Worsening`, `Improving`, `Stable`. -/
theorem risk_assessment_trend_correct (sessions : List WellnessSession) :
    ((get_student_risk_assessment []).riskLevel = "Unknown"
      ∧ (get_student_risk_assessment []).trend = "No data")
    ∧ (sessions.length = 1 →
        (get_student_risk_assessment sessions).trend = "Insufficient data")
    ∧ (2 ≤ sessions.length →
        (get_student_risk_assessment sessions).trend =
          if meanQ (((sortByTime sessions).map (·.anxietyScore)).take
                (sessions.length / 2)) + 1
              < meanQ (((sortByTime sessions).map (·.anxietyScore)).drop
                (sessions.length - sessions.length / 2)) then "Worsening"
          else if meanQ (((sortByTime sessions).map (·.anxietyScore)).drop
                (sessions.length - sessions.length / 2))
              < meanQ (((sortByTime sessions).map (·.anxietyScore)).take
                (sessions.length / 2)) - 1 then "Improving"
          else "Stable")
    ∧ (get_student_risk_assessment [mkW 0 3 "L1", mkW 60 9 "L1"]).trend
        = "Worsening"
    ∧ (get_student_risk_assessment [mkW 0 9 "L1", mkW 60 3 "L1"]).trend
        = "Improving"
    ∧ (get_student_risk_assessment [mkW 0 5 "L1", mkW 60 5 "L1"]).trend
        = "Stable" := by
  refine ⟨⟨rfl, rfl⟩, ?_, ?_, by decide, by decide, by decide⟩
  · intro h1
    have hne : ¬ sessions.isEmpty := by
      rw [List.isEmpty_iff]
      intro h0
      rw [h0] at h1
      cases h1
    unfold get_student_risk_assessment
    rw [if_neg hne]
    have : ¬ 2 ≤ sessions.length := by omega
    dsimp only
    rw [if_neg this]
  · intro h2
    have hne : ¬ sessions.isEmpty := by
      rw [List.isEmpty_iff]
      intro h0
      rw [h0] at h2
      cases h2
    unfold get_student_risk_assessment
    rw [if_neg hne]
    dsimp only
    rw [if_pos h2]
    unfold trendOfScores
    have hl : ((sortByTime sessions).map (·.anxietyScore)).length
        = sessions.length := by
      rw [List.length_map, sortByTime, List.length_insertionSort]
    rw [hl]

/-- Concrete instance of `risk_assessment_trend_correct`: a single session
yields the trend `Insufficient data`. -/
theorem risk_assessment_trend_correct_witness :
    (get_student_risk_assessment [mkW 0 7 "L2"]).trend = "Insufficient data" :=
  (risk_assessment_trend_correct [mkW 0 7 "L2"]).2.1 (by decide)

theorem trend_sorted_odd (pre post : List WellnessSession)
    (m : WellnessSession) (hlen : post.length = pre.length)
    (hpos : 0 < pre.length)
    (hs : List.Sorted timeLE (pre ++ m :: post)) :
    (get_student_risk_assessment (pre ++ m :: post)).trend
      = trendOfScores ((pre ++ post).map (·.anxietyScore)) := by
  have hne : ¬ (pre ++ m :: post).isEmpty := by simp
  have h2 : 2 ≤ (pre ++ m :: post).length := by
    rw [List.length_append]
    simp only [List.length_cons]
    omega
  unfold get_student_risk_assessment
  rw [if_neg hne]
  dsimp only
  rw [if_pos h2]
  have hsort : sortByTime (pre ++ m :: post) = pre ++ m :: post :=
    List.Sorted.insertionSort_eq hs
  rw [hsort]
  have hmap1 : (pre ++ m :: post).map (·.anxietyScore)
      = pre.map (·.anxietyScore)
        ++ m.anxietyScore :: post.map (·.anxietyScore) := by
    simp
  have hmap2 : (pre ++ post).map (·.anxietyScore)
      = pre.map (·.anxietyScore) ++ post.map (·.anxietyScore) := by
    simp
  rw [hmap1, hmap2]
  have hA : (pre.map (·.anxietyScore)).length = pre.length :=
    List.length_map _ _
  have hB : (post.map (·.anxietyScore)).length = pre.length := by
    rw [List.length_map, hlen]
  unfold trendOfScores
  have hlen1 : (pre.map (·.anxietyScore)
      ++ m.anxietyScore :: post.map (·.anxietyScore)).length
      = 2 * pre.length + 1 := by
    rw [List.length_append, List.length_cons, hA, hB]
    omega
  have hlen2 : (pre.map (·.anxietyScore) ++ post.map (·.anxietyScore)).length
      = 2 * pre.length := by
    rw [List.length_append, hA, hB]
    omega
  have htake1 : (pre.map (·.anxietyScore)
      ++ m.anxietyScore :: post.map (·.anxietyScore)).take
        ((pre.map (·.anxietyScore)
          ++ m.anxietyScore :: post.map (·.anxietyScore)).length / 2)
      = pre.map (·.anxietyScore) := by
    rw [hlen1]
    have hdiv : (2 * pre.length + 1) / 2 = pre.length := by omega
    rw [hdiv, ← hA, List.take_left]
  have hdrop1 : (pre.map (·.anxietyScore)
      ++ m.anxietyScore :: post.map (·.anxietyScore)).drop
        ((pre.map (·.anxietyScore)
            ++ m.anxietyScore :: post.map (·.anxietyScore)).length
          - (pre.map (·.anxietyScore)
              ++ m.anxietyScore :: post.map (·.anxietyScore)).length / 2)
      = post.map (·.anxietyScore) := by
    rw [hlen1]
    have hdiv : 2 * pre.length + 1 - (2 * pre.length + 1) / 2
        = pre.length + 1 := by omega
    have h1 : pre.length + 1 = (pre.map (·.anxietyScore)).length + 1 := by
      rw [hA]
    rw [hdiv, h1, List.drop_append]
    rfl
  have htake2 : (pre.map (·.anxietyScore)
      ++ post.map (·.anxietyScore)).take
        ((pre.map (·.anxietyScore) ++ post.map (·.anxietyScore)).length / 2)
      = pre.map (·.anxietyScore) := by
    rw [hlen2]
    have hdiv : 2 * pre.length / 2 = pre.length := by omega
    rw [hdiv, ← hA, List.take_left]
  have hdrop2 : (pre.map (·.anxietyScore)
      ++ post.map (·.anxietyScore)).drop
        ((pre.map (·.anxietyScore) ++ post.map (·.anxietyScore)).length
          - (pre.map (·.anxietyScore)
              ++ post.map (·.anxietyScore)).length / 2)
      = post.map (·.anxietyScore) := by
    rw [hlen2]
    have hdiv : 2 * pre.length - 2 * pre.length / 2 = pre.length := by omega
    rw [hdiv, ← hA, List.drop_left]
  rw [htake1, hdrop1, htake2, hdrop2]

/-- C10: for an odd number of sessions, the chronologically middle session is
in neither half of the trend computation — with `pre` the earliest `n / 2`
sessions and `post` the latest `n / 2`, the trend equals the half-comparison
of `pre` against `post` alone, so replacing the middle session (e.g. changing
its anxiety score) leaves the trend unchanged. -/
theorem trend_middle_independent (pre post : List WellnessSession)
    (m m2 : WellnessSession) (hlen : post.length = pre.length)
    (hpos : 0 < pre.length)
    (hs : List.Sorted timeLE (pre ++ m :: post))
    (hs2 : List.Sorted timeLE (pre ++ m2 :: post)) :
    (get_student_risk_assessment (pre ++ m :: post)).trend
        = trendOfScores ((pre ++ post).map (·.anxietyScore))
    ∧ (get_student_risk_assessment (pre ++ m :: post)).trend
        = (get_student_risk_assessment (pre ++ m2 :: post)).trend := by
  have h1 := trend_sorted_odd pre post m hlen hpos hs
  have h2 := trend_sorted_odd pre post m2 hlen hpos hs2
  exact ⟨h1, h1.trans h2.symm⟩

/-- Concrete instance of `trend_middle_independent`: three sessions with
anxiety scores `[3, 100, 9]` and `[3, 0, 9]` (middle replaced) have the same
trend. -/
theorem trend_middle_independent_witness :
    (get_student_risk_assessment
        [mkW 0 3 "L1", mkW 60 100 "L1", mkW 120 9 "L1"]).trend
      = (get_student_risk_assessment
        [mkW 0 3 "L1", mkW 60 0 "L1", mkW 120 9 "L1"]).trend := by
  have h := trend_middle_independent [mkW 0 3 "L1"] [mkW 120 9 "L1"]
    (mkW 60 100 "L1") (mkW 60 0 "L1") (by decide) (by decide)
    (by decide) (by decide)
  exact h.2

/-! ### Pseudonymization (`_hash_student_id`, C8)

`_hash_student_id` (services/data_processing.py:586-588) returns
`hashlib.sha256(student_id.encode()).hexdigest()[:16]`.  `str.encode()`
(UTF-8) and SHA-256 (FIPS 180-4) are implemented below over `Nat`, with
32-bit arithmetic taken modulo `2 ^ 32`. -/

/-- Truncation to a 32-bit word. -/
def w32 (n : Nat) : Nat := n % 4294967296

/-- Right rotation of a 32-bit word by `r` bits (`0 < r < 32`). -/
def rotr32 (r x : Nat) : Nat := w32 (x / 2 ^ r + x % 2 ^ r * 2 ^ (32 - r))

/-- Bitwise complement of a 32-bit word. -/
def not32 (x : Nat) : Nat := Nat.xor x 4294967295

def ch32 (x y z : Nat) : Nat :=
  Nat.xor (Nat.land x y) (Nat.land (not32 x) z)

def maj32 (x y z : Nat) : Nat :=
  Nat.xor (Nat.xor (Nat.land x y) (Nat.land x z)) (Nat.land y z)

def bsig0 (x : Nat) : Nat :=
  Nat.xor (Nat.xor (rotr32 2 x) (rotr32 13 x)) (rotr32 22 x)

def bsig1 (x : Nat) : Nat :=
  Nat.xor (Nat.xor (rotr32 6 x) (rotr32 11 x)) (rotr32 25 x)

def ssig0 (x : Nat) : Nat :=
  Nat.xor (Nat.xor (rotr32 7 x) (rotr32 18 x)) (x / 2 ^ 3)

def ssig1 (x : Nat) : Nat :=
  Nat.xor (Nat.xor (rotr32 17 x) (rotr32 19 x)) (x / 2 ^ 10)

/-- The 64 SHA-256 round constants. -/
def sha256K : List Nat :=
  [1116352408, 1899447441, 3049323471, 3921009573, 961987163,
   1508970993, 2453635748, 2870763221, 3624381080, 310598401,
   607225278, 1426881987, 1925078388, 2162078206, 2614888103,
   3248222580, 3835390401, 4022224774, 264347078, 604807628,
   770255983, 1249150122, 1555081692, 1996064986, 2554220882,
   2821834349, 2952996808, 3210313671, 3336571891, 3584528711,
   113926993, 338241895, 666307205, 773529912, 1294757372,
   1396182291, 1695183700, 1986661051, 2177026350, 2456956037,
   2730485921, 2820302411, 3259730800, 3345764771, 3516065817,
   3600352804, 4094571909, 275423344, 430227734, 506948616,
   659060556, 883997877, 958139571, 1322822218, 1537002063,
   1747873779, 1955562222, 2024104815, 2227730452, 2361852424,
   2428436474, 2756734187, 3204031479, 3329325298]

/-- The eight working registers of the compression function. -/
structure Hash8 where
  a : Nat
  b : Nat
  c : Nat
  d : Nat
  e : Nat
  f : Nat
  g : Nat
  h : Nat
deriving DecidableEq, Repr

/-- The SHA-256 initial hash value. -/
def sha256H0 : Hash8 :=
  ⟨1779033703, 3144134277, 1013904242, 2773480762,
   1359893119, 2600822924, 528734635, 1541459225⟩

/-- One compression round, fed a pair of schedule word and round constant. -/
def sha256Round (st : Hash8) (wk : Nat × Nat) : Hash8 :=
  ⟨w32 ((w32 (st.h + bsig1 st.e + ch32 st.e st.f st.g + wk.1 + wk.2))
      + w32 (bsig0 st.a + maj32 st.a st.b st.c)),
   st.a, st.b, st.c,
   w32 (st.d + w32 (st.h + bsig1 st.e + ch32 st.e st.f st.g + wk.1 + wk.2)),
   st.e, st.f, st.g⟩

/-- Message-schedule extension: `acc` holds the schedule so far in reverse
order; `n` further words are appended, and the full schedule is returned in
order. -/
def extendSchedule (acc : List Nat) : Nat → List Nat
  | 0 => acc.reverse
  | n + 1 =>
    extendSchedule
      (w32 (ssig1 (acc.getD 1 0) + acc.getD 6 0 + ssig0 (acc.getD 14 0)
        + acc.getD 15 0) :: acc) n

/-- Big-endian 32-bit words of a byte list. -/
def bytesToWords : List Nat → List Nat
  | b0 :: b1 :: b2 :: b3 :: rest =>
    (((b0 * 256 + b1) * 256 + b2) * 256 + b3) :: bytesToWords rest
  | _ => []

/-- Componentwise 32-bit addition of two states. -/
def addState (x y : Hash8) : Hash8 :=
  ⟨w32 (x.a + y.a), w32 (x.b + y.b), w32 (x.c + y.c), w32 (x.d + y.d),
   w32 (x.e + y.e), w32 (x.f + y.f), w32 (x.g + y.g), w32 (x.h + y.h)⟩

/-- Compression of one 64-byte block into the state. -/
def sha256Compress (st : Hash8) (block : List Nat) : Hash8 :=
  addState st
    (((extendSchedule (bytesToWords block).reverse 48).zip sha256K).foldl
      sha256Round st)

/-- Processing of `n` consecutive 64-byte blocks. -/
def sha256Blocks (st : Hash8) (bytes : List Nat) : Nat → Hash8
  | 0 => st
  | n + 1 => sha256Blocks (sha256Compress st (bytes.take 64)) (bytes.drop 64) n

/-- SHA-256 padding: `0x80`, zeros up to 56 mod 64, then the bit length as
eight big-endian bytes. -/
def sha256Pad (msg : List Nat) : List Nat :=
  msg ++ 128 :: List.replicate ((64 - (msg.length + 9) % 64) % 64) 0
      ++ [msg.length * 8 / 2 ^ 56 % 256, msg.length * 8 / 2 ^ 48 % 256,
          msg.length * 8 / 2 ^ 40 % 256, msg.length * 8 / 2 ^ 32 % 256,
          msg.length * 8 / 2 ^ 24 % 256, msg.length * 8 / 2 ^ 16 % 256,
          msg.length * 8 / 2 ^ 8 % 256, msg.length * 8 % 256]

/-- The SHA-256 state after absorbing a whole byte message. -/
def sha256State (msg : List Nat) : Hash8 :=
  sha256Blocks sha256H0 (sha256Pad msg) ((sha256Pad msg).length / 64)

/-- Lower-case hex digit. -/
def hexChar (n : Nat) : Char :=
  if n < 10 then Char.ofNat (48 + n) else Char.ofNat (87 + n)

/-- Fixed-width (`d` digits) lower-case hex rendering of a number. -/
def hexFixed : Nat → Nat → List Char
  | 0, _ => []
  | d + 1, n => hexFixed d (n / 16) ++ [hexChar (n % 16)]

/-- `hashlib.sha256(msg).hexdigest()`: 64 lower-case hex characters. -/
def hexDigest (msg : List Nat) : List Char :=
  ([(sha256State msg).a, (sha256State msg).b, (sha256State msg).c,
    (sha256State msg).d, (sha256State msg).e, (sha256State msg).f,
    (sha256State msg).g, (sha256State msg).h].map (hexFixed 8)).flatten

/-- UTF-8 bytes of one character. -/
def utf8Char (c : Char) : List Nat :=
  if c.toNat < 128 then [c.toNat]
  else if c.toNat < 2048 then
    [192 + c.toNat / 64, 128 + c.toNat % 64]
  else if c.toNat < 65536 then
    [224 + c.toNat / 4096, 128 + c.toNat / 64 % 64, 128 + c.toNat % 64]
  else
    [240 + c.toNat / 262144, 128 + c.toNat / 4096 % 64,
     128 + c.toNat / 64 % 64, 128 + c.toNat % 64]

/-- `str.encode()`: the UTF-8 bytes of a string. -/
def strBytes (s : String) : List Nat := (s.data.map utf8Char).flatten

/-- `_hash_student_id` (services/data_processing.py:586-588):
`hashlib.sha256(student_id.encode()).hexdigest()[:16]`. -/
def hash_student_id (s : String) : String :=
  String.mk ((hexDigest (strBytes s)).take 16)

theorem hexFixed_length (d : Nat) : ∀ n : Nat, (hexFixed d n).length = d := by
  induction d with
  | zero => intro n; rfl
  | succ d ih =>
    intro n
    simp only [hexFixed, List.length_append, List.length_singleton, ih]

theorem hexDigest_length (msg : List Nat) : (hexDigest msg).length = 64 := by
  simp [hexDigest, hexFixed_length]

/-- The pseudonym always has exactly 16 characters, whatever the input. -/
theorem hash_student_id_length (s : String) : (hash_student_id s).length = 16 := by
  show ((hexDigest (strBytes s)).take 16).length = 16
  rw [List.length_take, hexDigest_length]
  rfl

/-- `pseudonymize` is deterministic: it is a function of its input only. -/
theorem hash_student_id_deterministic (s : String) :
    hash_student_id s = hash_student_id s := rfl

/-- For every input whose length differs from 16 — in particular every
realistic student identifier — the pseudonym differs from the input.  (For
16-character inputs the question is whether truncated SHA-256 has a fixed
point, which is neither provable nor refutable by feasible computation.) -/
theorem hash_student_id_ne (s : String) (h : s.length ≠ 16) :
    hash_student_id s ≠ s := by
  intro he
  exact h (by rw [← he, hash_student_id_length])
